import Mathlib

/-!
Verification development for the static-data schema engine
(`src/index.ts` of mage-module-staticdata).

We shallowly embed the TypeScript source: JavaScript runtime values become
an inductive `Value` type, classes carrying the `_staticDataMeta` registry
become `SDClass`, and the walker (`walk` / `parseAttribute`) is translated
function by function.  Asynchronous behaviour is made explicit: JavaScript
promises appear as settled promise values (`resolvedPromise` /
`rejectedPromise`), because the only true suspension point — the external
validation capability — is modelled as a deterministic function
`vcap : Value → Except Err Unit` (the spec treats validation as an opaque
capability that either succeeds or fails with a validation error).

Every walker function additionally returns a ghost log (`List Value`) of
the arguments passed to the validation capability, in invocation order;
this instrumentation changes no computed value and exists only so that
temporal claims ("element 3 is never validated") can be stated.  Within a
single field the log order is exact, since `parseAttribute` awaits each
validation before touching the next array element.
-/

namespace MageStaticData

/-- Errors that can settle a rejected promise or abort a synchronous call:
`typeError` stands for a JavaScript `TypeError` (e.g. `Object.keys(undefined)`,
iterating a non-iterable, constructing a non-constructor), `missingMetadata`
for the `new Error('Missing metadata!')` thrown in `walk`, `validation n`
for a failure reported by the external validation capability, and `ioError`
for a failure of the external persistence collaborators. -/
inductive Err where
  | typeError
  | missingMetadata
  | validation (code : Nat)
  | ioError
deriving DecidableEq, Repr

/-- JavaScript runtime values as the walker observes them.  A settled promise
is represented directly by its outcome (`resolvedPromise` / `rejectedPromise`):
the walker's only asynchronous operation is the validation capability, which is
modelled deterministically, so every promise created during a walk settles to a
fixed outcome. -/
inductive Value where
  | undefined
  | null
  | bool (b : Bool)
  | num (n : Int)
  | str (s : String)
  | arr (xs : List Value)
  | obj (fields : List (String × Value))
  | resolvedPromise (v : Value)
  | rejectedPromise (e : Err)

/-- The three shape kinds of `const enum ValueType` in the source. -/
inductive ValueType where
  | Scalar
  | Array
  | Object
deriving DecidableEq, Repr

mutual
/-- A class as the engine sees it: only its static `_staticDataMeta` slot
matters.  `meta = none` models a class that was never annotated (the static
field is `undefined`); `meta = some m` is the registry, a JavaScript object
whose keys are in insertion order. -/
inductive SDClass where
  | mk (meta : Option (List (String × MetaData))) : SDClass

/-- One entry of the registry: `{ remoteName, opts, type }` (interface
`IMetaData` in the source). -/
inductive MetaData where
  | mk (remoteName : String) (opts : Opts) (type : ValueType) : MetaData

/-- The `opts` payload attached at annotation time (`childClass` argument of
the `StaticData` decorator): either another class, an arbitrary data payload,
or `undefined` when the argument was omitted. -/
inductive Opts where
  | cls (c : SDClass) : Opts
  | payload (v : Value) : Opts
  | undefined : Opts
end

def SDClass.meta : SDClass → Option (List (String × MetaData))
  | .mk m => m

def MetaData.remoteName : MetaData → String
  | .mk rn _ _ => rn

def MetaData.opts : MetaData → Opts
  | .mk _ o _ => o

def MetaData.type : MetaData → ValueType
  | .mk _ _ t => t

/-- JavaScript property read `data[key]`, as used by `walk` (line 139 of the
source).  Reading a property of `undefined`/`null` throws a `TypeError`;
objects look the key up (missing keys give `undefined`); strings and arrays
answer canonical numeric indices and `length`; every other primitive (and a
promise, whose relevant properties are none of the registry keys) yields
`undefined`. -/
def getField (data : Value) (key : String) : Except Err Value :=
  match data with
  | .undefined => .error .typeError
  | .null => .error .typeError
  | .obj fields =>
    match fields.lookup key with
    | some v => .ok v
    | none => .ok .undefined
  | .str s =>
    if key = "length" then .ok (.num s.length)
    else
      match key.toNat? with
      | some i =>
        if toString i = key then
          match s.data[i]? with
          | some ch => .ok (.str (String.mk [ch]))
          | none => .ok .undefined
        else .ok .undefined
      | none => .ok .undefined
  | .arr xs =>
    if key = "length" then .ok (.num xs.length)
    else
      match key.toNat? with
      | some i =>
        if toString i = key then
          match xs[i]? with
          | some v => .ok v
          | none => .ok .undefined
        else .ok .undefined
      | none => .ok .undefined
  | _ => .ok .undefined

/-- `for (const x of val)` (line 161): arrays iterate their elements, strings
iterate their characters, everything else throws a `TypeError`. -/
def toIterable (val : Value) : Except Err (List Value) :=
  match val with
  | .arr xs => .ok xs
  | .str s => .ok (s.data.map fun ch => Value.str (String.mk [ch]))
  | _ => .error .typeError

/-- Wrap the settled outcome of an async call as the promise value that the
caller receives without awaiting. -/
def promiseOf : Except Err Value → Value
  | .ok v => .resolvedPromise v
  | .error e => .rejectedPromise e

/-- The effect type of the embedded walker: the settled outcome of the
computation together with a ghost log of the arguments passed to the
validation capability, in invocation order. -/
abbrev M (α : Type) := Except Err α × List Value

/-- `await`: sequence an async step; a rejection short-circuits, and the
ghost logs accumulate left to right. -/
def bindM {α β : Type} : M α → (α → M β) → M β
  | (.error e, log), _ => (.error e, log)
  | (.ok a, log), k =>
    match k a with
    | (res, log') => (res, log ++ log')

/-- Return a plain value from an async function. -/
def pureM {α : Type} (a : α) : M α := (.ok a, [])

/-- Run a synchronous step (such as a property read) inside an async
function: a throw rejects the enclosing promise. -/
def liftE {α : Type} (r : Except Err α) : M α := (r, [])

/-- Call an async function *without awaiting it* (`instance[key] =
parseAttribute(val, keyMeta)` in `walk`): the settled outcome becomes data,
its validation calls still happen (the log is kept), but a rejection does
not propagate to the caller. -/
def spawn {α : Type} : M α → M (Except Err α)
  | (res, log) => (.ok res, log)

/-- `await validator.validate(child)`: invoke the external validation
capability and record the invocation in the ghost log. -/
def validateCall (vcap : Value → Except Err Unit) (child : Value) : M Unit :=
  (vcap child, [child])

/-- `instance[key] = v` while the instance is being populated: cons the
binding onto the object under construction. -/
def setInstanceField (key : String) (v : Value) : Value → Value
  | .obj fields => .obj ((key, v) :: fields)
  | other => other

mutual
/-- `walk(data, Target)` (lines 128–145).  `Object.keys(meta)` is evaluated
on line 131, *before* the `if (!meta)` guard on line 133, so when the class
was never annotated the call throws a `TypeError` and the
`'Missing metadata!'` branch is dead; when `meta` is an object it is truthy
and the guard cannot fire either.  `walk` is synchronous: each field receives
the *promise* returned by the async `parseAttribute`, un-awaited.  The second
component is the ghost log of validation-capability invocations. -/
def walk (vcap : Value → Except Err Unit) (data : Value) (Target : SDClass) :
    M Value :=
  match Target with
  | .mk none => (.error .typeError, [])
  | .mk (some m) => walkFields vcap data m
termination_by (sizeOf Target, 0)

/-- The `for (const key of keys)` loop of `walk`: read `data[key]` (a
synchronous step that can throw), call `parseAttribute` without awaiting it,
and store the resulting promise in the instance. -/
def walkFields (vcap : Value → Except Err Unit) (data : Value) :
    List (String × MetaData) → M Value
  | [] => pureM (.obj [])
  | (key, keyMeta) :: rest =>
    bindM (liftE (getField data key)) fun val =>
    bindM (spawn (parseAttribute vcap val keyMeta)) fun attrRes =>
    bindM (walkFields vcap data rest) fun restInst =>
    pureM (setInstanceField key (promiseOf attrRes) restInst)
termination_by l => (sizeOf l, 0)

/-- `parseAttribute(val, keyMeta)` (lines 154–173).  Being `async`, it never
throws synchronously: every failure settles its returned promise as rejected.
Scalar values are returned unchanged; Array values are iterated in source
order, each element walked against `keyMeta.opts` and awaited through the
validation capability before the next element is touched; Object values are
walked and validated once.  When `opts` is not a class, `new Target()`
inside the nested `walk` throws a `TypeError`. -/
def parseAttribute (vcap : Value → Except Err Unit) (val : Value)
    (keyMeta : MetaData) : M Value :=
  match keyMeta with
  | .mk _ opts ty =>
    match ty with
    | .Scalar => pureM val
    | .Array =>
      bindM (liftE (toIterable val)) fun elems =>
      bindM (parseElems vcap opts elems) fun xs =>
      pureM (.arr xs)
    | .Object =>
      match opts with
      | .cls c =>
        bindM (walk vcap val c) fun child =>
        bindM (validateCall vcap child) fun _ =>
        pureM child
      | _ => (.error .typeError, [])
termination_by (sizeOf keyMeta, 0)

/-- The element loop of the Array branch: `walk` the element, `await
validator.validate(childInstance)`, push, continue; a rejection aborts the
loop, so later elements are never processed. -/
def parseElems (vcap : Value → Except Err Unit) (opts : Opts) :
    List Value → M (List Value)
  | [] => pureM []
  | v :: rest =>
    match opts with
    | .cls c =>
      bindM (walk vcap v c) fun child =>
      bindM (validateCall vcap child) fun _ =>
      bindM (parseElems vcap (.cls c) rest) fun xs =>
      pureM (child :: xs)
    | _ => (.error .typeError, [])
termination_by xs => (sizeOf opts, sizeOf xs)
end

/-! ### Type Classifier and Field Descriptor Registry -/

/-- The observable outcome of `new Info()` in `computeMetadata` (lines
76–77), where `Info = Reflect.getMetadata('design:type', target, key)` is the
field's declared type: the four predicates the code then tests on the fresh
instance (`instanceof String`, `instanceof Number`, `instanceof Boolean`,
`Array.isArray`). -/
structure DesignType where
  isStringWrapper : Bool
  isNumberWrapper : Bool
  isBooleanWrapper : Bool
  isArray : Bool
deriving DecidableEq, Repr

/-- `computeMetadata(target, key, remoteName, opts)` (lines 75–91): classify
the declared type by instantiating it and testing the primitive-wrapper
checks first, then `Array.isArray`, defaulting to `Object`; return the
`{remoteName, opts, type}` record stored in the registry. -/
def computeMetadata (info : DesignType) (remoteName : String) (opts : Opts) :
    MetaData :=
  let ty :=
    if info.isStringWrapper || info.isNumberWrapper || info.isBooleanWrapper then
      ValueType.Scalar
    else if info.isArray then ValueType.Array
    else ValueType.Object
  .mk remoteName opts ty

/-- JavaScript object update `type._staticDataMeta[key] = meta`: an existing
key keeps its position and gets the new value, a new key is appended. -/
def setKey : List (String × MetaData) → String → MetaData → List (String × MetaData)
  | [], key, md => [(key, md)]
  | (k, m) :: rest, key, md =>
    if k = key then (key, md) :: rest else (k, m) :: setKey rest key md

/-- Registry lookup (reading `_staticDataMeta[key]`). -/
def getKey : List (String × MetaData) → String → Option MetaData
  | [], _ => none
  | (k, m) :: rest, key => if k = key then some m else getKey rest key

/-- The body of the `StaticData(remoteName, childClass)` decorator (lines
189–200): compute the field's metadata and store it under the field's local
name `key`, creating the registry object on first use (`reg` is the class's
current `_staticDataMeta`; `none` models the still-undefined static slot). -/
def StaticData (remoteName : String) (childClass : Opts) (info : DesignType)
    (reg : Option (List (String × MetaData))) (key : String) :
    List (String × MetaData) :=
  let md := computeMetadata info remoteName childClass
  setKey (reg.getD []) key md

/-! ### Schema Extractor -/

mutual
/-- One entry of the extracted schema: `{name, type, meta}` (lines 110–114). -/
inductive SchemaField where
  | mk (name : String) (type : ValueType) (meta : MetaOut) : SchemaField

/-- The `meta` slot of an extracted schema entry: either a recursively
extracted nested schema or the options payload passed through as-is. -/
inductive MetaOut where
  | desc (d : List (String × SchemaField)) : MetaOut
  | passthrough (o : Opts) : MetaOut
end

mutual
/-- `extractMetaData(target)` (lines 98–118).  As in `walk`,
`Object.keys(meta)` throws a `TypeError` when the class was never annotated
(there is no guard at all here). -/
def extractMetaData : SDClass → Except Err (List (String × SchemaField))
  | .mk none => .error .typeError
  | .mk (some m) => extractFields m
termination_by c => sizeOf c

/-- The `for (const key of keys)` loop of `extractMetaData`: destructure
`{opts, remoteName: name, type}` and emit `{name, type, meta}`. -/
def extractFields : List (String × MetaData) → Except Err (List (String × SchemaField))
  | [] => .ok []
  | (key, .mk rn opts ty) :: rest =>
    match extractOpts opts with
    | .error e => .error e
    | .ok mo =>
      match extractFields rest with
      | .error e => .error e
      | .ok out => .ok ((key, .mk rn ty mo) :: out)
termination_by l => sizeOf l

/-- The ternary `opts && opts._staticDataMeta ? extractMetaData(opts) : opts`
(line 113): recurse exactly when the payload is a class whose
`_staticDataMeta` object exists (an object is truthy, so any present registry
triggers recursion); `undefined`, data payloads and classes without a
registry pass through unchanged. -/
def extractOpts : Opts → Except Err MetaOut
  | .cls c =>
    match c with
    | .mk (some m) =>
      match extractMetaData (.mk (some m)) with
      | .error e => .error e
      | .ok d => .ok (.desc d)
    | .mk none => .ok (.passthrough (.cls (.mk none)))
  | o => .ok (.passthrough o)
termination_by o => sizeOf o
end

/-! ### Module operations

The persistence backend, compression and JSON serialization are external
collaborators (spec §1, §6): the store is modelled as an optional slot
holding the last blob handed to `store`, and `JSON.parse`/`JSON.stringify`
of the already-structured tree as the identity on `Value`. -/

/-- The module's mutable state: the in-memory static-data tree and the
persisted dump (the `store`/`loadDump` collaborator boundary). -/
structure ModuleState where
  staticData : Value
  stored : Option Value

/-- JavaScript truthiness, as used by `data || this.staticData`. -/
def truthy : Value → Bool
  | .undefined => false
  | .null => false
  | .bool b => b
  | .num n => n != 0
  | .str s => s != ""
  | _ => true

/-- `this.stringify(data)` (lines 398–400): serialize `data ||
this.staticData`; serialization itself is the out-of-scope boundary, so the
chosen tree is the blob. -/
def stringifyOp (st : ModuleState) (data : Option Value) : Value :=
  match data with
  | some d => if truthy d then d else st.staticData
  | none => st.staticData

/-- `store` → `dump` (lines 251–253, 331–347): hand the blob to the
persistence collaborator. -/
def storeOp (st : ModuleState) (blob : Value) : ModuleState :=
  { st with stored := some blob }

/-- `load` → `loadDump` (lines 236–238, 356–372): read the persisted blob
back; rejects (file error) when no dump exists. -/
def loadOp (st : ModuleState) : Except Err Value :=
  match st.stored with
  | some blob => .ok blob
  | none => .error .ioError

/-- `private parse(json)` (lines 383–388): deserialize (identity at this
boundary) and `walk` the tree against the module's `StaticDataClass`. -/
def parseOp (vcap : Value → Except Err Unit) (C : SDClass) (data : Value) :
    M Value :=
  walk vcap data C

/-- `validate(state, data)` (lines 303–305): run `this.parse(data)` for its
exceptions only (`// Will throw if invalid`) and discard the result. -/
def validateOp (vcap : Value → Except Err Unit) (C : SDClass) (data : Value) :
    Except Err Unit :=
  match (parseOp vcap C data).1 with
  | .error e => .error e
  | .ok _ => .ok ()

/-- `import(state, data)` (lines 287–291): validate, then store the
stringified data, then re-load (the loaded blob is discarded; `staticData`
is never reassigned here). -/
def importOp (vcap : Value → Except Err Unit) (C : SDClass) (st : ModuleState)
    (data : Value) : Except Err Unit × ModuleState :=
  match validateOp vcap C data with
  | .error e => (.error e, st)
  | .ok _ =>
    let st1 := storeOp st (stringifyOp st (some data))
    match loadOp st1 with
    | .error e => (.error e, st1)
    | .ok _ => (.ok (), st1)

/-- `new this.StaticDataClass()`: a bare instance with no own properties. -/
def newInstance (_C : SDClass) : Value := .obj []

/-- `setup(state, callback)` (lines 263–275): load and parse inside a
`try`; any failure is swallowed by assigning a fresh bare instance; the
callback is always invoked with no error argument (the second component of
the result). `loadRes` is the outcome of the external `load` collaborator
(a JSON-syntax failure of the deserialization boundary is folded into it). -/
def setupOp (vcap : Value → Except Err Unit) (C : SDClass)
    (loadRes : Except Err Value) (st : ModuleState) : ModuleState × Option Err :=
  match loadRes with
  | .error _ => ({ st with staticData := newInstance C }, none)
  | .ok data =>
    match (parseOp vcap C data).1 with
    | .error _ => ({ st with staticData := newInstance C }, none)
    | .ok inst => ({ st with staticData := inst }, none)

/-! ### Generic evaluation lemmas -/

theorem bindM_err {α β : Type} (e : Err) (log : List Value) (k : α → M β) :
    bindM (.error e, log) k = (.error e, log) := rfl

theorem bindM_ok {α β : Type} (a : α) (log : List Value) (k : α → M β) :
    bindM (.ok a, log) k = ((k a).1, log ++ (k a).2) := by
  show (match k a with | (res, log') => (res, log ++ log')) = _
  cases h : k a
  simp

theorem getField_single (key : String) (v : Value) :
    getField (.obj [(key, v)]) key = .ok v := by
  simp [getField, List.lookup]

/-- Walking a class with a single Scalar field: the field receives the
promise of the raw value, and the validation capability is never invoked. -/
theorem walk_single_scalar (vcap : Value → Except Err Unit) (key rn : String)
    (o : Opts) (v : Value) :
    walk vcap (.obj [(key, v)]) (.mk (some [(key, .mk rn o .Scalar)])) =
      (.ok (.obj [(key, .resolvedPromise v)]), []) := by
  rw [walk, walkFields, getField_single]
  rw [show liftE (α := Value) (.ok v) = (.ok v, []) from rfl]
  rw [bindM_ok]
  rw [parseAttribute]
  rw [show spawn (α := Value) (pureM v) = (.ok (.ok v), []) from rfl]
  rw [bindM_ok]
  rw [walkFields]
  simp [bindM, pureM, setInstanceField, promiseOf]

theorem parseAttribute_scalar (vcap : Value → Except Err Unit) (v : Value)
    (rn : String) (o : Opts) :
    parseAttribute vcap v (.mk rn o .Scalar) = (.ok v, []) := by
  rw [parseAttribute]
  rfl

theorem parseAttribute_object_ok (vcap : Value → Except Err Unit) (v : Value)
    (rn : String) (c : SDClass) (w : Value) (l : List Value)
    (h : walk vcap v c = (.ok w, l)) (hv : vcap w = .ok ()) :
    parseAttribute vcap v (.mk rn (.cls c) .Object) = (.ok w, l ++ [w]) := by
  rw [parseAttribute, h, bindM_ok]
  rw [show validateCall vcap w = (vcap w, [w]) from rfl, hv]
  rw [bindM_ok]
  simp [pureM]

theorem parseAttribute_object_fail (vcap : Value → Except Err Unit) (v : Value)
    (rn : String) (c : SDClass) (w : Value) (l : List Value) (e : Err)
    (h : walk vcap v c = (.ok w, l)) (hv : vcap w = .error e) :
    parseAttribute vcap v (.mk rn (.cls c) .Object) = (.error e, l ++ [w]) := by
  rw [parseAttribute, h, bindM_ok]
  rw [show validateCall vcap w = (vcap w, [w]) from rfl, hv]
  simp [bindM]

theorem parseElems_nil (vcap : Value → Except Err Unit) (o : Opts) :
    parseElems vcap o [] = (.ok [], []) := by
  rw [parseElems]
  rfl

theorem parseElems_cons_ok (vcap : Value → Except Err Unit) (c : SDClass)
    (v : Value) (rest : List Value) (w : Value) (l : List Value)
    (res : Except Err (List Value)) (l' : List Value)
    (h : walk vcap v c = (.ok w, l)) (hv : vcap w = .ok ())
    (hrest : parseElems vcap (.cls c) rest = (res, l')) :
    parseElems vcap (.cls c) (v :: rest) =
      (Except.map (fun xs => w :: xs) res, l ++ [w] ++ l') := by
  rw [parseElems, h, bindM_ok]
  rw [show validateCall vcap w = (vcap w, [w]) from rfl, hv]
  rw [bindM_ok, hrest]
  cases res <;> simp [bindM, pureM, Except.map, List.append_assoc]

theorem parseElems_cons_veto (vcap : Value → Except Err Unit) (c : SDClass)
    (v : Value) (rest : List Value) (w : Value) (l : List Value) (e : Err)
    (h : walk vcap v c = (.ok w, l)) (hv : vcap w = .error e) :
    parseElems vcap (.cls c) (v :: rest) = (.error e, l ++ [w]) := by
  rw [parseElems, h, bindM_ok]
  rw [show validateCall vcap w = (vcap w, [w]) from rfl, hv]
  simp [bindM]

theorem parseAttribute_array (vcap : Value → Except Err Unit)
    (xs : List Value) (rn : String) (o : Opts)
    (res : Except Err (List Value)) (l : List Value)
    (h : parseElems vcap o xs = (res, l)) :
    parseAttribute vcap (.arr xs) (.mk rn o .Array) =
      (Except.map Value.arr res, l) := by
  rw [parseAttribute]
  rw [show liftE (toIterable (.arr xs)) = (.ok xs, ([] : List Value)) from rfl]
  rw [bindM_ok, h]
  cases res <;> simp [bindM, pureM, Except.map]

/-- Walking a class with a single field: the field receives the promise of
the (un-awaited) `parseAttribute` call, whose ghost log is the walk's log. -/
theorem walk_single (vcap : Value → Except Err Unit) (key : String)
    (km : MetaData) (v : Value) (res : Except Err Value) (l : List Value)
    (h : parseAttribute vcap v km = (res, l)) :
    walk vcap (.obj [(key, v)]) (.mk (some [(key, km)])) =
      (.ok (.obj [(key, promiseOf res)]), l) := by
  rw [walk, walkFields, getField_single]
  rw [show liftE (α := Value) (.ok v) = (.ok v, ([] : List Value)) from rfl]
  rw [bindM_ok, h]
  rw [show spawn (res, l) = (.ok res, l) from rfl]
  rw [bindM_ok, walkFields]
  simp [bindM, pureM, setInstanceField]

/-! ### Shared concrete fixtures -/

/-- A validation capability that accepts every instance. -/
def vcapOk : Value → Except Err Unit := fun _ => .ok ()

/-- A validation capability that rejects every instance. -/
def vcapReject : Value → Except Err Unit := fun _ => .error (.validation 0)

/-- A schema class with one Scalar field `field` (remote name `F`). -/
def Cscalar : SDClass := .mk (some [("field", .mk "F" .undefined .Scalar)])

/-- A nested schema class with one Scalar field `x`. -/
def Child : SDClass := .mk (some [("x", .mk "X" .undefined .Scalar)])

/-- A schema class with one Object-kind field `child` of class `Child`. -/
def Parent : SDClass := .mk (some [("child", .mk "Child" (.cls Child) .Object)])

/-- The `Tag` class of the spec's concrete scenario: one Scalar field
`label` (remote name `Label`); labels are numbered here. -/
def Tag : SDClass := .mk (some [("label", .mk "Label" .undefined .Scalar)])

/-- The `Item`-like class for the array claims: one Array-kind field `tags`
of class `Tag` (remote name `Tags`). -/
def Item : SDClass := .mk (some [("tags", .mk "Tags" (.cls Tag) .Array)])

/-- A validation capability that rejects exactly the walked `Tag` instance
whose label resolved to `2` (the second element below). -/
def vcapMid : Value → Except Err Unit := fun v =>
  match v with
  | .obj ((_, .resolvedPromise (.num n)) :: _) =>
    if n = 2 then .error (.validation 7) else .ok ()
  | _ => .ok ()

/-- Raw node for the fail-fast scenario: `{tags: [{label: 1}, {label: 2},
{label: 3}]}`, where the second element is the invalid one. -/
def rawTags : Value := .obj [("tags", .arr
  [.obj [("label", .num 1)], .obj [("label", .num 2)], .obj [("label", .num 3)]])]

/-- The walked instance of the i-th raw tag. -/
def walkedTag (n : Int) : Value := .obj [("label", .resolvedPromise (.num n))]

theorem walk_tag (vcap : Value → Except Err Unit) (n : Int) :
    walk vcap (.obj [("label", .num n)]) Tag = (.ok (walkedTag n), []) := by
  have h := walk_single vcap "label" (.mk "Label" .undefined .Scalar) (.num n)
    (.ok (.num n)) [] (parseAttribute_scalar vcap (.num n) "Label" .undefined)
  simpa [Tag, walkedTag, promiseOf] using h

/-! ### Claims -/

/-- Claim C2.  The spec says a Scalar field passes through unchanged:
`walk({field: 42}, C).field === 42`.  In the code `walk` assigns the
un-awaited promise returned by the async `parseAttribute`, so the field
holds a promise resolving to 42 — not 42 itself. -/
theorem C2_scalar_field_holds_promise_not_value :
    walk vcapOk (.obj [("field", .num 42)]) Cscalar =
      (.ok (.obj [("field", .resolvedPromise (.num 42))]), [])
  ∧ walk vcapOk (.obj [("field", .str "x")]) Cscalar =
      (.ok (.obj [("field", .resolvedPromise (.str "x"))]), [])
  ∧ Value.resolvedPromise (.num 42) ≠ Value.num 42 := by
  refine ⟨?_, ?_, ?_⟩
  · rw [show Cscalar = .mk (some [("field", .mk "F" .undefined .Scalar)]) from rfl]
    exact walk_single_scalar vcapOk "field" "F" .undefined (.num 42)
  · rw [show Cscalar = .mk (some [("field", .mk "F" .undefined .Scalar)]) from rfl]
    exact walk_single_scalar vcapOk "field" "F" .undefined (.str "x")
  · intro h
    exact Value.noConfusion h

/-- Claim C1.  The spec says the walker awaits every nested validation and
propagates a validation failure as a failure of the walk call itself.  In
the code `walk` never awaits `parseAttribute`, so when the capability
rejects the nested `Child` instance the rejection only settles the promise
stored at `child`: `walk` still returns successfully.  The ghost log (the
second component) shows the nested instance *was* passed to the validation
capability — the failure is simply dropped on the floor. -/
theorem C1_walk_succeeds_despite_nested_validation_failure :
    walk vcapReject (.obj [("child", .obj [("x", .num 1)])]) Parent =
      (.ok (.obj [("child", .rejectedPromise (.validation 0))]),
        [.obj [("x", .resolvedPromise (.num 1))]]) := by
  have hchild : walk vcapReject (.obj [("x", .num 1)]) Child =
      (.ok (.obj [("x", .resolvedPromise (.num 1))]), []) := by
    have h := walk_single vcapReject "x" (.mk "X" .undefined .Scalar) (.num 1)
      (.ok (.num 1)) [] (parseAttribute_scalar vcapReject (.num 1) "X" .undefined)
    simpa [Child, promiseOf] using h
  have hattr := parseAttribute_object_fail vcapReject (.obj [("x", .num 1)])
    "Child" Child (.obj [("x", .resolvedPromise (.num 1))]) [] (.validation 0)
    hchild rfl
  have h := walk_single vcapReject "child" (.mk "Child" (.cls Child) .Object)
    (.obj [("x", .num 1)]) (.error (.validation 0))
    ([] ++ [.obj [("x", .resolvedPromise (.num 1))]]) hattr
  simpa [Parent, promiseOf] using h

/-- Claim C4.  The spec says that on `[valid, invalid, valid]` the walk
fails with the validation error and the third element is never validated.
Fail-fast holds: the ghost log is exactly the first two walked instances,
so the capability is never invoked on the third.  But `walk` itself does
not fail — it returns successfully with the rejection confined to the
promise stored at `tags` (the `await` inside `parseAttribute` is itself
never awaited by `walk`). -/
theorem C4_failfast_skips_third_element_but_walk_succeeds :
    walk vcapMid rawTags Item =
      (.ok (.obj [("tags", .rejectedPromise (.validation 7))]),
        [walkedTag 1, walkedTag 2])
  ∧ walkedTag 3 ∉ (walk vcapMid rawTags Item).2 := by
  have hrest := parseElems_cons_veto vcapMid Tag (.obj [("label", .num 2)])
    [.obj [("label", .num 3)]] (walkedTag 2) [] (.validation 7)
    (walk_tag vcapMid 2) rfl
  have helems := parseElems_cons_ok vcapMid Tag (.obj [("label", .num 1)])
    [.obj [("label", .num 2)], .obj [("label", .num 3)]] (walkedTag 1) []
    (.error (.validation 7)) ([] ++ [walkedTag 2]) (walk_tag vcapMid 1) rfl hrest
  have hattr := parseAttribute_array vcapMid
    [.obj [("label", .num 1)], .obj [("label", .num 2)], .obj [("label", .num 3)]]
    "Tags" (.cls Tag) (Except.map (fun xs => walkedTag 1 :: xs) (.error (.validation 7)))
    ([] ++ [walkedTag 1] ++ ([] ++ [walkedTag 2])) helems
  have hmain : walk vcapMid rawTags Item =
      (.ok (.obj [("tags", .rejectedPromise (.validation 7))]),
        [walkedTag 1, walkedTag 2]) := by
    have h := walk_single vcapMid "tags" (.mk "Tags" (.cls Tag) .Array)
      (.arr [.obj [("label", .num 1)], .obj [("label", .num 2)], .obj [("label", .num 3)]])
      (Except.map Value.arr (Except.map (fun xs => walkedTag 1 :: xs) (.error (.validation 7))))
      ([] ++ [walkedTag 1] ++ ([] ++ [walkedTag 2])) hattr
    simpa [Item, rawTags, promiseOf, Except.map] using h
  refine ⟨hmain, ?_⟩
  rw [hmain]
  simp [walkedTag]

/-- Claim C3.  The spec says walking a never-annotated class fails with
`SchemaError("Missing metadata")`.  The code does fail for every raw node,
but with a `TypeError`: `Object.keys(meta)` on line 131 runs before the
`if (!meta)` guard on line 133, so the `'Missing metadata!'` error is dead
code and is never the error surfaced to the caller. -/
theorem C3_unannotated_class_throws_typeError :
    ∀ (data : Value) (vcap : Value → Except Err Unit),
      walk vcap data (.mk none) = (.error .typeError, [])
      ∧ Err.typeError ≠ Err.missingMetadata := by
  intro data vcap
  exact ⟨by rw [walk], by decide⟩

/-- Claim C5.  The classifier in `computeMetadata` yields Scalar exactly
for the primitive-wrapper instantiations, otherwise Array exactly for
array-like instantiations, otherwise Object. -/
theorem C5_classifier_cases (i : DesignType) (rn : String) (o : Opts) :
    ((computeMetadata i rn o).type = .Scalar ↔
      (i.isStringWrapper = true ∨ i.isNumberWrapper = true ∨ i.isBooleanWrapper = true))
  ∧ ((computeMetadata i rn o).type = .Array ↔
      (¬(i.isStringWrapper = true ∨ i.isNumberWrapper = true ∨ i.isBooleanWrapper = true)
        ∧ i.isArray = true))
  ∧ ((computeMetadata i rn o).type = .Object ↔
      (¬(i.isStringWrapper = true ∨ i.isNumberWrapper = true ∨ i.isBooleanWrapper = true)
        ∧ i.isArray = false)) := by
  rcases i with ⟨s, n, b, a⟩
  cases s <;> cases n <;> cases b <;> cases a <;>
    simp [computeMetadata, MetaData.type]

theorem getKey_setKey (l : List (String × MetaData)) (key : String)
    (md : MetaData) (k : String) :
    getKey (setKey l key md) k = if k = key then some md else getKey l k := by
  induction l with
  | nil =>
    by_cases h : k = key
    · subst h
      simp [setKey, getKey]
    · simp [setKey, getKey, h, Ne.symm h]
  | cons hd tl ih =>
    obtain ⟨k', m'⟩ := hd
    by_cases h1 : k' = key
    · subst h1
      by_cases h2 : k = k'
      · subst h2
        simp [setKey, getKey]
      · simp [setKey, getKey, h2, Ne.symm h2]
    · by_cases h2 : k = k'
      · subst h2
        simp [setKey, getKey, h1, Ne.symm h1, ih]
      · simp [setKey, getKey, h1, h2, Ne.symm h2, ih]

/-- Claim C7.  Registering two distinct field names in either order yields
registries with the same contents (lookup-equal), and re-registering the
same local name silently overwrites the earlier descriptor. -/
theorem C7_registry_order_independent_and_last_write_wins
    (rn1 rn2 : String) (o1 o2 : Opts) (i1 i2 : DesignType)
    (reg : Option (List (String × MetaData))) (k1 k2 : String) (h : k1 ≠ k2) :
    (∀ k, getKey (StaticData rn2 o2 i2 (some (StaticData rn1 o1 i1 reg k1)) k2) k
        = getKey (StaticData rn1 o1 i1 (some (StaticData rn2 o2 i2 reg k2)) k1) k)
  ∧ (∀ k, getKey (StaticData rn2 o2 i2 (some (StaticData rn1 o1 i1 reg k1)) k1) k
        = getKey (StaticData rn2 o2 i2 reg k1) k) := by
  constructor <;> intro k <;>
    simp only [StaticData, Option.getD_some, getKey_setKey]
  · by_cases hk2 : k = k2 <;> by_cases hk1 : k = k1 <;>
      simp [hk1, hk2, h, Ne.symm h]
  · by_cases hk1 : k = k1 <;> simp [hk1]

/-- Witness for C7 at concrete registrations. -/
theorem C7_registry_order_independent_and_last_write_wins_witness :
    (∀ k, getKey (StaticData "B" .undefined ⟨true, false, false, false⟩
          (some (StaticData "A" .undefined ⟨true, false, false, false⟩ none "a")) "b") k
        = getKey (StaticData "A" .undefined ⟨true, false, false, false⟩
          (some (StaticData "B" .undefined ⟨true, false, false, false⟩ none "b")) "a") k)
  ∧ (∀ k, getKey (StaticData "B" .undefined ⟨true, false, false, false⟩
          (some (StaticData "A" .undefined ⟨true, false, false, false⟩ none "a")) "a") k
        = getKey (StaticData "B" .undefined ⟨true, false, false, false⟩ none "a") k) :=
  C7_registry_order_independent_and_last_write_wins
    "A" "B" .undefined .undefined ⟨true, false, false, false⟩ ⟨true, false, false, false⟩
    none "a" "b" (by decide)

/-- Claim C9.  When the walk performed by the validate step of `import`
fails, the import fails with that error and the module state is returned
unchanged: `staticData` still holds the previous instance and the store
step is never reached. -/
theorem C9_failed_validate_aborts_import (vcap : Value → Except Err Unit)
    (C : SDClass) (st : ModuleState) (data : Value) (e : Err)
    (h : (walk vcap data C).1 = .error e) :
    importOp vcap C st data = (.error e, st) := by
  simp only [importOp, validateOp, parseOp]
  rw [h]

/-- Witness for C9: importing into an unannotated module class. -/
theorem C9_failed_validate_aborts_import_witness :
    importOp vcapOk (.mk none) ⟨.obj [], none⟩ (.obj []) =
      (.error .typeError, ⟨.obj [], none⟩) :=
  C9_failed_validate_aborts_import vcapOk (.mk none) ⟨.obj [], none⟩ (.obj [])
    .typeError (by rw [walk])

/-- Claim C10.  `setup` always invokes its callback with no error argument;
when the load or the parse fails, `staticData` is assigned a fresh bare
instance of the module's class instead of the parsed data. -/
theorem C10_setup_always_calls_back_without_error (vcap : Value → Except Err Unit)
    (C : SDClass) (loadRes : Except Err Value) (st : ModuleState) :
    (setupOp vcap C loadRes st).2 = none
  ∧ (∀ e, loadRes = .error e → (setupOp vcap C loadRes st).1.staticData = newInstance C)
  ∧ (∀ data e log, loadRes = .ok data → parseOp vcap C data = (.error e, log) →
      (setupOp vcap C loadRes st).1.staticData = newInstance C) := by
  refine ⟨?_, ?_, ?_⟩
  · cases loadRes with
    | error e => simp [setupOp]
    | ok data =>
      simp only [setupOp]
      cases h : (parseOp vcap C data).1 <;> simp
  · intro e he
    subst he
    simp [setupOp]
  · intro data e log hl hp
    subst hl
    have h1 : (parseOp vcap C data).1 = .error e := by rw [hp]
    simp [setupOp, h1]

/-- The `Item` class of the spec's concrete scenario: Scalar field `id`
(remote name `ID`) and Array field `tags` of class `Tag` (remote name
`Tags`). -/
def ItemFull : SDClass := .mk (some
  [("id", .mk "ID" .undefined .Scalar),
   ("tags", .mk "Tags" (.cls Tag) .Array)])

/-- Claim C8.  Each registered field is extracted as `{name: remoteName,
type: shapeKind, meta}` where `meta` is the recursively extracted schema
when the options payload is a class with a registry and the payload
unchanged otherwise; on the Item/Tag scenario this gives exactly the
expected schema description. -/
theorem C8_extract_schema_shape :
    (∀ (key rn : String) (o : Opts) (ty : ValueType)
        (rest : List (String × MetaData)) (out : List (String × SchemaField)),
      extractFields ((key, .mk rn o ty) :: rest) = .ok out →
      ∃ mo out', extractOpts o = .ok mo ∧ extractFields rest = .ok out' ∧
        out = (key, .mk rn ty mo) :: out')
  ∧ (∀ m : List (String × MetaData),
      extractOpts (.cls (.mk (some m))) = Except.map MetaOut.desc (extractFields m))
  ∧ extractOpts (.cls (.mk none)) = .ok (.passthrough (.cls (.mk none)))
  ∧ (∀ v : Value, extractOpts (.payload v) = .ok (.passthrough (.payload v)))
  ∧ extractOpts .undefined = .ok (.passthrough .undefined)
  ∧ extractMetaData ItemFull = .ok
      [("id", .mk "ID" .Scalar (.passthrough .undefined)),
       ("tags", .mk "Tags" .Array
         (.desc [("label", .mk "Label" .Scalar (.passthrough .undefined))]))] := by
  refine ⟨?_, ?_, ?_, ?_, ?_, ?_⟩
  · intro key rn o ty rest out h
    rw [extractFields] at h
    cases ho : extractOpts o with
    | error e =>
      rw [ho] at h
      simp at h
    | ok mo =>
      rw [ho] at h
      cases hr : extractFields rest with
      | error e =>
        rw [hr] at h
        simp at h
      | ok out' =>
        rw [hr] at h
        simp only [Except.ok.injEq] at h
        exact ⟨mo, out', rfl, rfl, h.symm⟩
  · intro m
    rw [extractOpts, extractMetaData]
    cases hm : extractFields m <;> simp [Except.map]
  · simp [extractOpts]
  · intro v
    simp [extractOpts]
  · simp [extractOpts]
  · rw [show ItemFull = .mk (some
      [("id", .mk "ID" .undefined .Scalar),
       ("tags", .mk "Tags" (.cls Tag) .Array)]) from rfl]
    rw [extractMetaData, extractFields]
    rw [show extractOpts .undefined = .ok (.passthrough .undefined) from by simp [extractOpts]]
    rw [extractFields]
    rw [show extractOpts (.cls Tag) = .ok
        (.desc [("label", .mk "Label" .Scalar (.passthrough .undefined))]) from ?_]
    · rw [extractFields]
    · rw [show Tag = .mk (some [("label", .mk "Label" .undefined .Scalar)]) from rfl]
      rw [extractOpts, extractMetaData, extractFields]
      rw [show extractOpts .undefined = .ok (.passthrough .undefined) from by simp [extractOpts]]
      rw [extractFields]

/-- Claim C6.  For an Array-kind field, walking input `[a, b, c]` (when
every element walks and validates successfully) produces the walked
elements in source order, and an empty input produces an empty output. -/
theorem C6_array_order_preserved (vcap : Value → Except Err Unit)
    (f rn : String) (C' : SDClass) (a b c wa wb wc : Value)
    (la lb lc : List Value)
    (ha : walk vcap a C' = (.ok wa, la)) (hva : vcap wa = .ok ())
    (hb : walk vcap b C' = (.ok wb, lb)) (hvb : vcap wb = .ok ())
    (hc : walk vcap c C' = (.ok wc, lc)) (hvc : vcap wc = .ok ()) :
    (walk vcap (.obj [(f, .arr [a, b, c])])
        (.mk (some [(f, .mk rn (.cls C') .Array)]))).1
      = .ok (.obj [(f, .resolvedPromise (.arr [wa, wb, wc]))])
  ∧ (walk vcap (.obj [(f, .arr [])])
        (.mk (some [(f, .mk rn (.cls C') .Array)]))).1
      = .ok (.obj [(f, .resolvedPromise (.arr []))]) := by
  constructor
  · have h3 := parseElems_cons_ok vcap C' c [] wc lc (.ok []) []
      hc hvc (parseElems_nil vcap (.cls C'))
    simp only [Except.map] at h3
    have h2 := parseElems_cons_ok vcap C' b [c] wb lb (.ok [wc])
      (lc ++ [wc] ++ []) hb hvb h3
    simp only [Except.map] at h2
    have h1 := parseElems_cons_ok vcap C' a [b, c] wa la (.ok [wb, wc])
      (lb ++ [wb] ++ (lc ++ [wc] ++ [])) ha hva h2
    simp only [Except.map] at h1
    have hattr := parseAttribute_array vcap [a, b, c] rn (.cls C') (.ok [wa, wb, wc])
      (la ++ [wa] ++ (lb ++ [wb] ++ (lc ++ [wc] ++ []))) h1
    simp only [Except.map] at hattr
    have h := walk_single vcap f (.mk rn (.cls C') .Array) (.arr [a, b, c])
      (.ok (.arr [wa, wb, wc]))
      (la ++ [wa] ++ (lb ++ [wb] ++ (lc ++ [wc] ++ []))) hattr
    rw [h]
    simp [promiseOf]
  · have hattr := parseAttribute_array vcap [] rn (.cls C') (.ok [])
      [] (parseElems_nil vcap (.cls C'))
    simp only [Except.map] at hattr
    have h := walk_single vcap f (.mk rn (.cls C') .Array) (.arr [])
      (.ok (.arr [])) [] hattr
    rw [h]
    simp [promiseOf]

/-- Witness for C6 on the concrete `Tag` elements. -/
theorem C6_array_order_preserved_witness :
    (walk vcapOk (.obj [("tags", .arr
        [.obj [("label", .num 1)], .obj [("label", .num 2)],
         .obj [("label", .num 3)]])])
        (.mk (some [("tags", .mk "Tags" (.cls Tag) .Array)]))).1
      = .ok (.obj [("tags", .resolvedPromise (.arr
          [walkedTag 1, walkedTag 2, walkedTag 3]))])
  ∧ (walk vcapOk (.obj [("tags", .arr [])])
        (.mk (some [("tags", .mk "Tags" (.cls Tag) .Array)]))).1
      = .ok (.obj [("tags", .resolvedPromise (.arr []))]) :=
  C6_array_order_preserved vcapOk "tags" "Tags" Tag
    (.obj [("label", .num 1)]) (.obj [("label", .num 2)]) (.obj [("label", .num 3)])
    (walkedTag 1) (walkedTag 2) (walkedTag 3) [] [] []
    (walk_tag vcapOk 1) rfl (walk_tag vcapOk 2) rfl (walk_tag vcapOk 3) rfl

end MageStaticData
